import Mathlib

/-!
Shallow embedding of the `BookQueue` priority job queue from `src/models.py`.

Modelling conventions:
* Python `dict[str, V]` (insertion-ordered) is an association list
  `List (String × V)`: assignment replaces the value of the first matching key
  in place or appends a new pair at the end (`dinsert`), `del`/`pop` removes
  the key (`derase`), iteration walks the list in order.
* `queue.PriorityQueue` is the multiset of its entries, a `List QueueItem`;
  `get_nowait` removes a minimal entry under `QueueItem.__lt__` (`popMin`,
  taking the leftmost minimal entry), `put` appends.
* `threading.Event` is a `Bool` (`false` = unset, `true` = set); the flag a
  worker holds is identified with the `_cancel_flags` entry for its id, which
  is the same object until that entry is popped or overwritten.
* Wall-clock readings (`time.time()`, `datetime.now()`) are a `Nat` argument
  `now` threaded to every operation that reads the clock; `timedelta`
  comparison `(current - last) > timeout` becomes `now - t > timeout` on `Nat`
  (both sides agree: a non-positive elapsed time is never greater than a
  non-negative timeout).
* `Path(path).exists()` is a parameter `pe : String → Bool` of `refresh`.
* Python float `progress` is modelled as `Int` (only ever stored/compared).
* A `KeyError` (`self._book_data[book_id]` in `refresh`) makes the operation
  return `none : Option BookQueue`.
* The `threading.Lock` is elided: every public operation is a sequential
  state transformer, which is the behaviour of the lock-protected bodies.
-/

/-- Association-list lookup: first matching key, like a Python dict read. -/
def dlookup {α : Type} : List (String × α) → String → Option α
  | [], _ => none
  | (k, v) :: rest, key => if k = key then some v else dlookup rest key

/-- Association-list write, like Python dict assignment: replace the value of
the first matching key in place, else append at the end. -/
def dinsert {α : Type} : List (String × α) → String → α → List (String × α)
  | [], k, v => [(k, v)]
  | (k', v') :: rest, k, v =>
    if k' = k then (k', v) :: rest else (k', v') :: dinsert rest k v

/-- Association-list key removal, like Python `del d[k]` / `d.pop(k, None)`. -/
def derase {α : Type} : List (String × α) → String → List (String × α)
  | [], _ => []
  | (k', v') :: rest, k =>
    if k' = k then derase rest k else (k', v') :: derase rest k

/-- Association-list in-place value update of an existing key; identity when
the key is absent (matches the `if k in d:` guards in the source). -/
def dupdate {α : Type} : List (String × α) → String → (α → α) → List (String × α)
  | [], _, _ => []
  | (k', v') :: rest, k, f =>
    if k' = k then (k', f v') :: dupdate rest k f else (k', v') :: dupdate rest k f

/-- Membership list insert for `_active_downloads` (a dict used as a set:
`d[k] = True` keeps an existing key in place, else appends). -/
def adInsert (l : List String) (k : String) : List String :=
  if k ∈ l then l else l ++ [k]

/-- Membership list removal for `_active_downloads.pop(k, None)`. -/
def sErase (l : List String) (k : String) : List String :=
  l.filter (fun x => decide (x ≠ k))

/-- Python truthiness of an `Optional[str]`: `None` and `""` are falsy. -/
def pyTruthy : Option String → Bool
  | none => false
  | some s => decide (s ≠ "")

/-- Enum `QueueStatus` from `src/models.py`. -/
inductive QueueStatus where
  | QUEUED
  | DOWNLOADING
  | AVAILABLE
  | ERROR
  | DONE
  | CANCELLED
  deriving DecidableEq, Repr

/-- Dataclass `QueueItem` (`book_id`, `priority`, `added_time`). -/
structure QueueItem where
  book_id : String
  priority : Int
  added_time : Nat
  deriving DecidableEq, Repr

/-- `QueueItem.__lt__`: priority first (lower value wins), then added time. -/
def qiLT (a b : QueueItem) : Bool :=
  if a.priority ≠ b.priority then decide (a.priority < b.priority)
  else decide (a.added_time < b.added_time)

/-- Dataclass `BookInfo`, restricted to the fields the queue operations read
or write (the remaining descriptive fields never influence behaviour). -/
structure BookInfo where
  id : String
  title : String
  author : Option String := none
  download_path : Option String := none
  priority : Int := 0
  progress : Option Int := none
  deriving DecidableEq, Repr

/-- `PriorityQueue.get_nowait` on the entry multiset: remove the leftmost
minimal entry under `QueueItem.__lt__`; `none` on an empty queue. -/
def popMin : List QueueItem → Option (QueueItem × List QueueItem)
  | [] => none
  | x :: xs =>
    match popMin xs with
    | none => some (x, [])
    | some (m, rest) => if qiLT m x then some (m, x :: rest) else some (x, xs)

/-- State of a `BookQueue` instance: the six fields set up in `__init__`. -/
structure BookQueue where
  queue : List QueueItem
  status : List (String × QueueStatus)
  book_data : List (String × BookInfo)
  status_timestamps : List (String × Nat)
  status_timeout : Nat
  cancel_flags : List (String × Bool)
  active_downloads : List String
  deriving DecidableEq, Repr

/-- A fresh `BookQueue()` with the configured `STATUS_TIMEOUT` (seconds). -/
def initQ (timeout : Nat) : BookQueue :=
  { queue := [], status := [], book_data := [], status_timestamps := [],
    status_timeout := timeout, cancel_flags := [], active_downloads := [] }

/-- `BookQueue._update_status`: set status and refresh its timestamp. -/
def BookQueue._update_status (s : BookQueue) (book_id : String)
    (status : QueueStatus) (now : Nat) : BookQueue :=
  { s with status := dinsert s.status book_id status,
           status_timestamps := dinsert s.status_timestamps book_id now }

/-- The enqueue branch of `BookQueue.add` (everything after the early return). -/
def BookQueue.addFresh (s : BookQueue) (book_id : String) (book_data : BookInfo)
    (priority : Int) (now : Nat) : BookQueue :=
  let bd := { book_data with priority := priority }
  let s1 := { s with queue := s.queue ++ [QueueItem.mk book_id priority now],
                     book_data := dinsert s.book_data book_id bd }
  s1._update_status book_id QueueStatus.QUEUED now

/-- `BookQueue.add`: no-op when the id is tracked outside error/done/cancelled,
otherwise enqueue with status `queued` and a fresh timestamp. -/
def BookQueue.add (s : BookQueue) (book_id : String) (book_data : BookInfo)
    (priority : Int) (now : Nat) : BookQueue :=
  match dlookup s.status book_id with
  | some st =>
    if st ∈ [QueueStatus.ERROR, QueueStatus.DONE, QueueStatus.CANCELLED] then
      s.addFresh book_id book_data priority now
    else s
  | none => s.addFresh book_id book_data priority now

/-- Body of `BookQueue.get_next`; the fuel bounds the self-recursion on
cancelled entries by the queue length (each step pops one entry). -/
def BookQueue.getNextAux : Nat → BookQueue → Option (String × BookQueue)
  | 0, _ => none
  | Nat.succ n, s =>
    match popMin s.queue with
    | none => none
    | some (item, rest) =>
      let s1 : BookQueue := { s with queue := rest }
      if dlookup s1.status item.book_id = some QueueStatus.CANCELLED then
        BookQueue.getNextAux n s1
      else
        some (item.book_id,
          { s1 with cancel_flags := dinsert s1.cancel_flags item.book_id false,
                    active_downloads := adInsert s1.active_downloads item.book_id })

/-- `BookQueue.get_next`: pop the next id, skipping tracked-cancelled entries,
and mint a fresh (unset) cancellation flag plus an active-download entry. -/
def BookQueue.get_next (s : BookQueue) : Option (String × BookQueue) :=
  BookQueue.getNextAux s.queue.length s

/-- `BookQueue.update_status`: set status/timestamp, and on
available/error/done/cancelled drop the active-download and cancel-flag
entries. -/
def BookQueue.update_status (s : BookQueue) (book_id : String)
    (status : QueueStatus) (now : Nat) : BookQueue :=
  let s1 := s._update_status book_id status now
  if status ∈ [QueueStatus.AVAILABLE, QueueStatus.ERROR, QueueStatus.DONE,
               QueueStatus.CANCELLED] then
    { s1 with active_downloads := sErase s1.active_downloads book_id,
              cancel_flags := derase s1.cancel_flags book_id }
  else s1

/-- `BookQueue.update_download_path`: set the path only if the id has data. -/
def BookQueue.update_download_path (s : BookQueue) (book_id : String)
    (download_path : String) : BookQueue :=
  if (dlookup s.book_data book_id).isSome then
    { s with book_data := (dupdate s.book_data book_id
        (fun b => { b with download_path := some download_path })) }
  else s

/-- `BookQueue.update_progress`: set progress only if the id has data. -/
def BookQueue.update_progress (s : BookQueue) (book_id : String)
    (progress : Int) : BookQueue :=
  if (dlookup s.book_data book_id).isSome then
    { s with book_data := (dupdate s.book_data book_id
        (fun b => { b with progress := some progress })) }
  else s

/-- `BookQueue.cancel_download`: on `downloading` set the flag (if present) and
mark cancelled; on `queued` just mark cancelled; otherwise fail unchanged. -/
def BookQueue.cancel_download (s : BookQueue) (book_id : String) (now : Nat) :
    Bool × BookQueue :=
  match dlookup s.status book_id with
  | some QueueStatus.DOWNLOADING =>
    let s1 := { s with cancel_flags := dupdate s.cancel_flags book_id (fun _ => true) }
    (true, s1._update_status book_id QueueStatus.CANCELLED now)
  | some QueueStatus.QUEUED =>
    (true, s._update_status book_id QueueStatus.CANCELLED now)
  | _ => (false, s)

/-- `BookQueue.set_priority`: only for a `queued` id; drain-and-rebuild the
queue rewriting the matching entry's priority (keeping its added time), mirror
the priority into the book data, and report whether an entry was found. -/
def BookQueue.set_priority (s : BookQueue) (book_id : String)
    (new_priority : Int) : Bool × BookQueue :=
  if dlookup s.status book_id = some QueueStatus.QUEUED then
    let found := s.queue.any (fun it => decide (it.book_id = book_id))
    let q := s.queue.map (fun it =>
      if it.book_id = book_id then { it with priority := new_priority } else it)
    let bd := if found then
        dupdate s.book_data book_id (fun b => { b with priority := new_priority })
      else s.book_data
    (found, { s with queue := q, book_data := bd })
  else (false, s)

/-- One drained item of `BookQueue.reorder_queue` being re-inserted. -/
def BookQueue.reorderItem (prios : List (String × Int)) (s : BookQueue)
    (it : QueueItem) : BookQueue :=
  match dlookup prios it.book_id with
  | some p =>
    { s with queue := s.queue ++ [{ it with priority := p }],
             book_data := dupdate s.book_data it.book_id
               (fun b => { b with priority := p }) }
  | none => { s with queue := s.queue ++ [it] }

/-- `BookQueue.reorder_queue`: drain, rewrite listed priorities, reinsert. -/
def BookQueue.reorder_queue (s : BookQueue) (prios : List (String × Int)) :
    Bool × BookQueue :=
  (true, s.queue.foldl (BookQueue.reorderItem prios) { s with queue := [] })

/-- Removal of one id by `BookQueue.clear_completed` (all five maps). -/
def BookQueue.purgeId (s : BookQueue) (book_id : String) : BookQueue :=
  { s with status := derase s.status book_id,
           status_timestamps := derase s.status_timestamps book_id,
           book_data := derase s.book_data book_id,
           cancel_flags := derase s.cancel_flags book_id,
           active_downloads := sErase s.active_downloads book_id }

/-- `BookQueue.clear_completed`: purge every done/error/cancelled id from all
tracking maps and return how many were removed. -/
def BookQueue.clear_completed (s : BookQueue) : Nat × BookQueue :=
  let rem := (s.status.filter (fun p =>
    decide (p.2 ∈ [QueueStatus.DONE, QueueStatus.ERROR, QueueStatus.CANCELLED]))).map Prod.fst
  (rem.length, rem.foldl BookQueue.purgeId s)

/-- The path-clearing prologue of one `refresh` loop iteration: a recorded
path that no longer exists is cleared; returns the state and the local
`path` variable. -/
def clearPath (pe : String → Bool) (s : BookQueue) (book_id : String)
    (info : BookInfo) : BookQueue × Option String :=
  if pyTruthy info.download_path = true ∧ pe (info.download_path.getD "") = false then
    ({ s with book_data := (dupdate s.book_data book_id
        (fun b => { b with download_path := none })) }, none)
  else (s, info.download_path)

/-- One iteration of the `refresh` loop over a `(book_id, status)` pair:
`none` models the `KeyError` of `self._book_data[book_id]`; otherwise returns
the updated state and whether the id joins `to_remove`. -/
def refreshEntry (pe : String → Bool) (now : Nat) (s : BookQueue)
    (e : String × QueueStatus) : Option (BookQueue × Bool) :=
  match dlookup s.book_data e.1 with
  | none => none
  | some info =>
    let p := clearPath pe s e.1 info
    let s2 := if e.2 = QueueStatus.AVAILABLE ∧ pyTruthy p.2 = false then
        p.1._update_status e.1 QueueStatus.DONE now
      else p.1
    let stale := match dlookup s2.status_timestamps e.1 with
      | some t => decide (now - t > s2.status_timeout)
      | none => false
    some (s2, stale && decide (e.2 ∈ [QueueStatus.DONE, QueueStatus.ERROR,
      QueueStatus.AVAILABLE, QueueStatus.CANCELLED]))

/-- The `refresh` loop over the snapshot of `_status` items, accumulating
`to_remove`. -/
def refreshLoop (pe : String → Bool) (now : Nat) :
    List (String × QueueStatus) → BookQueue → List String →
    Option (BookQueue × List String)
  | [], s, acc => some (s, acc)
  | e :: rest, s, acc =>
    match refreshEntry pe now s e with
    | none => none
    | some (s1, rem) =>
      refreshLoop pe now rest s1 (if rem then acc ++ [e.1] else acc)

/-- Removal of one stale id at the end of `refresh` (status, timestamp, and
guarded book-data deletion; cancel bookkeeping is not touched). -/
def BookQueue.reapId (s : BookQueue) (book_id : String) : BookQueue :=
  { s with status := derase s.status book_id,
           status_timestamps := derase s.status_timestamps book_id,
           book_data := derase s.book_data book_id }

/-- The removal phase of `refresh`. -/
def BookQueue.reapAll (rem : List String) (s : BookQueue) : BookQueue :=
  rem.foldl BookQueue.reapId s

/-- `BookQueue.refresh`: demote stale `available` entries and evict expired
ones; `none` models the uncaught `KeyError` on an id without book data. -/
def BookQueue.refresh (pe : String → Bool) (now : Nat) (s : BookQueue) :
    Option BookQueue :=
  match refreshLoop pe now s.status s [] with
  | none => none
  | some (s1, rem) => some (BookQueue.reapAll rem s1)

/-- `BookQueue.set_status_timeout` (hours → seconds). -/
def BookQueue.set_status_timeout (s : BookQueue) (hours : Nat) : BookQueue :=
  { s with status_timeout := hours * 3600 }

/-- Ids returned by repeatedly calling `get_next`, up to `fuel` calls. -/
def getNextTraceIds : Nat → BookQueue → List String
  | 0, _ => []
  | Nat.succ n, s =>
    match s.get_next with
    | none => []
    | some (book_id, s') => book_id :: getNextTraceIds n s'

/-- Fold a sequence of `add` calls `(book_id, info, priority, now)`. -/
def applyAdds (calls : List (String × BookInfo × Int × Nat)) (s : BookQueue) :
    BookQueue :=
  calls.foldl (fun st c => st.add c.1 c.2.1 c.2.2.1 c.2.2.2) s

/-- Fully drain a queue multiset by repeated `popMin` (fuel-bounded). -/
def drainFuel : Nat → List QueueItem → List QueueItem
  | 0, _ => []
  | Nat.succ n, l =>
    match popMin l with
    | none => []
    | some (m, rest) => m :: drainFuel n rest

/-! ### Concrete scenario states used by the claim theorems -/

/-- All tracked statuses are `queued`. -/
def allQueued (s : BookQueue) : Prop :=
  ∀ p ∈ s.status, p.2 = QueueStatus.QUEUED

/-- A sample book record used in concrete scenarios. -/
def mkInfo (s : String) : BookInfo := { id := s, title := s }

/-- C1 example state: add A with priority 5 at time 0, then B with priority 1
at time 1. -/
def c1ex : BookQueue :=
  applyAdds [("A", mkInfo "A", 5, 0), ("B", mkInfo "B", 1, 1)] (initQ 3600)

def c2info : BookInfo := mkInfo "x"

/-- State after `add("x")`. -/
def c2s1 : BookQueue := (initQ 3600).add "x" c2info 0 0

/-- ... then `cancel_download("x")` (leaves the queue entry in place). -/
def c2s2 : BookQueue := (BookQueue.cancel_download c2s1 "x" 1).2

/-- ... then `clear_completed()` (removes "x" from the registry, but its
stale queue entry survives). -/
def c2s3 : BookQueue := (BookQueue.clear_completed c2s2).2

/-- C2 witness state: a freshly added (not cancelled) job. -/
def c2ws : BookQueue := (initQ 3600).add "a" c2info 0 0

def c3info : BookInfo := mkInfo "x"

/-- State after `add("x")`. -/
def c3s1 : BookQueue := (initQ 3600).add "x" c3info 0 0

/-- ... then the state right after `get_next` returned ("x", flag). -/
def c3s2 : BookQueue := ((BookQueue.get_next c3s1).getD ("", c3s1)).2

/-- C3 witness state: a job tracked as `downloading` holding a flag (built by
add, get_next, then the worker reporting `downloading`). -/
def c3ws : BookQueue := BookQueue.update_status c3s2 "x" QueueStatus.DOWNLOADING 1

def c4info : BookInfo := mkInfo "x"

/-- State after `add("x")`. -/
def c4s1 : BookQueue := (initQ 3600).add "x" c4info 0 0

/-- ... then the state right after `get_next` returned ("x", flag). -/
def c4s2 : BookQueue := ((BookQueue.get_next c4s1).getD ("", c4s1)).2

/-- C5 witness state: a queued job. -/
def c5ws : BookQueue := (initQ 3600).add "x" (mkInfo "x") 0 0

/-- C8 witness state: "x" queued once. -/
def c8ws : BookQueue := (initQ 3600).add "x" (mkInfo "x") 0 0

/-- C9 example state: A added with priority 5 at time 0, B with priority 1 at
time 1. -/
def c9ex : BookQueue :=
  applyAdds [("A", mkInfo "A", 5, 0), ("B", mkInfo "B", 1, 1)] (initQ 3600)

/-- C6 counterexample state: "x" available at time 0 with a recorded,
still-existing artifact path. -/
def c6s1 : BookQueue := (initQ 3600).add "x" (mkInfo "x") 0 0
def c6s2 : BookQueue := BookQueue.update_status c6s1 "x" QueueStatus.AVAILABLE 0
def c6s3 : BookQueue := BookQueue.update_download_path c6s2 "x" "/p"

/-- C6 second scenario: "y" dispatched, reported downloading, then cancelled —
its cancel flag is set but never retired (see C3). -/
def c6t1 : BookQueue :=
  ((BookQueue.get_next ((initQ 3600).add "y" (mkInfo "y") 0 0)).getD
    ("", initQ 3600)).2
def c6t2 : BookQueue := BookQueue.update_status c6t1 "y" QueueStatus.DOWNLOADING 1
def c6t3 : BookQueue := (BookQueue.cancel_download c6t2 "y" 1).2

/-- C6 witness state: a queued job with an ancient timestamp. -/
def c6ws : BookQueue := (initQ 3600).add "z" (mkInfo "z") 0 0

/-- The state after a reaper pass over `c6ws` far past the timeout. -/
def c6ws2 : BookQueue :=
  (BookQueue.refresh (fun _ => true) 999999 c6ws).getD (initQ 0)

/-- C6 witness state: an `available` job whose recorded artifact is missing,
with an ancient timestamp. -/
def c6wd : BookQueue :=
  BookQueue.update_download_path
    (BookQueue.update_status ((initQ 3600).add "x" (mkInfo "x") 0 0) "x"
      QueueStatus.AVAILABLE 0) "x" "/gone"

/-- The state after a reaper pass over `c6wd` far past the timeout. -/
def c6wd2 : BookQueue :=
  (BookQueue.refresh (fun _ => false) 99999 c6wd).getD (initQ 0)

/-! ### Association-list lemmas -/

theorem dlookup_dinsert_self {α : Type} (d : List (String × α)) (k : String) (v : α) :
    dlookup (dinsert d k v) k = some v := by
  induction d with
  | nil => simp [dinsert, dlookup]
  | cons p rest ih =>
    by_cases h : p.1 = k
    · simp [dinsert, h, dlookup]
    · simp [dinsert, h, dlookup, ih]

theorem dlookup_dinsert_other {α : Type} (d : List (String × α)) (k k' : String)
    (v : α) (hne : k' ≠ k) : dlookup (dinsert d k v) k' = dlookup d k' := by
  have hkk : ¬ (k = k') := fun h => hne h.symm
  induction d with
  | nil => simp [dinsert, dlookup, hkk]
  | cons p rest ih =>
    by_cases h : p.1 = k
    · simp [dinsert, h, dlookup, hkk]
    · by_cases h2 : p.1 = k'
      · simp [dinsert, h, dlookup, h2, hne]
      · simp [dinsert, h, dlookup, h2, ih]

theorem dlookup_derase_self {α : Type} (d : List (String × α)) (k : String) :
    dlookup (derase d k) k = none := by
  induction d with
  | nil => simp [derase, dlookup]
  | cons p rest ih =>
    by_cases h : p.1 = k
    · simp [derase, h, ih]
    · simp [derase, h, dlookup, ih]

theorem dlookup_derase_other {α : Type} (d : List (String × α)) (k k' : String)
    (hne : k' ≠ k) : dlookup (derase d k) k' = dlookup d k' := by
  induction d with
  | nil => simp [derase]
  | cons p rest ih =>
    have hkk : ¬ (k = k') := fun h => hne h.symm
    by_cases h : p.1 = k
    · simp [derase, h, dlookup, hkk, ih]
    · by_cases h2 : p.1 = k'
      · simp [derase, h, dlookup, h2, hne]
      · simp [derase, h, dlookup, h2, ih]

theorem dlookup_dupdate_self {α : Type} (d : List (String × α)) (k : String)
    (f : α → α) : dlookup (dupdate d k f) k = (dlookup d k).map f := by
  induction d with
  | nil => simp [dupdate, dlookup]
  | cons p rest ih =>
    by_cases h : p.1 = k
    · simp [dupdate, h, dlookup]
    · simp [dupdate, h, dlookup, ih]

theorem dlookup_dupdate_other {α : Type} (d : List (String × α)) (k k' : String)
    (f : α → α) (hne : k' ≠ k) : dlookup (dupdate d k f) k' = dlookup d k' := by
  induction d with
  | nil => simp [dupdate]
  | cons p rest ih =>
    have hkk : ¬ (k = k') := fun h => hne h.symm
    by_cases h : p.1 = k
    · simp [dupdate, h, dlookup, hkk, ih]
    · by_cases h2 : p.1 = k'
      · simp [dupdate, h, dlookup, h2, hne]
      · simp [dupdate, h, dlookup, h2, ih]

theorem dlookup_isSome_dupdate {α : Type} (d : List (String × α)) (k k' : String)
    (f : α → α) : (dlookup (dupdate d k f) k').isSome = (dlookup d k').isSome := by
  by_cases h : k' = k
  · subst h; rw [dlookup_dupdate_self]; cases dlookup d k' <;> simp
  · rw [dlookup_dupdate_other _ _ _ _ h]

theorem dlookup_mem {α : Type} {d : List (String × α)} {k : String} {v : α}
    (h : dlookup d k = some v) : (k, v) ∈ d := by
  induction d with
  | nil => simp [dlookup] at h
  | cons p rest ih =>
    obtain ⟨a, b⟩ := p
    by_cases hp : a = k
    · simp [dlookup, hp] at h
      subst hp
      subst h
      exact List.mem_cons_self _ _
    · simp [dlookup, hp] at h
      exact List.mem_cons_of_mem _ (ih h)

theorem mem_dinsert {α : Type} {d : List (String × α)} {k : String} {v : α}
    {p : String × α} (h : p ∈ dinsert d k v) : p ∈ d ∨ p = (k, v) := by
  induction d with
  | nil => simp [dinsert] at h; right; exact h
  | cons q rest ih =>
    by_cases hq : q.1 = k
    · simp [dinsert, hq] at h
      rcases h with h | h
      · right; cases q; simp_all
      · left; exact List.mem_cons_of_mem _ h
    · simp [dinsert, hq] at h
      rcases h with h | h
      · left; simp [h]
      · rcases ih h with h2 | h2
        · left; exact List.mem_cons_of_mem _ h2
        · right; exact h2

theorem not_mem_sErase_self (l : List String) (k : String) : k ∉ sErase l k := by
  intro h
  simp [sErase, List.mem_filter] at h

theorem mem_adInsert_self (l : List String) (k : String) : k ∈ adInsert l k := by
  unfold adInsert
  by_cases h : k ∈ l <;> simp [h]

/-! ### Order lemmas for `QueueItem.__lt__` -/

theorem qiLT_eq_true_iff (a b : QueueItem) :
    qiLT a b = true ↔
      (a.priority < b.priority ∨
        (a.priority = b.priority ∧ a.added_time < b.added_time)) := by
  unfold qiLT
  split_ifs with h
  · simp only [decide_eq_true_eq]
    constructor
    · intro hlt; exact Or.inl hlt
    · intro hor
      rcases hor with hlt | ⟨heq, _⟩
      · exact hlt
      · exact absurd heq h
  · push_neg at h
    simp only [decide_eq_true_eq]
    constructor
    · intro hlt; exact Or.inr ⟨h, hlt⟩
    · intro hor
      rcases hor with hlt | ⟨_, hlt2⟩
      · omega
      · exact hlt2

theorem qiLT_eq_false_iff (a b : QueueItem) :
    qiLT a b = false ↔
      (b.priority < a.priority ∨
        (a.priority = b.priority ∧ b.added_time ≤ a.added_time)) := by
  rw [← Bool.not_eq_true, qiLT_eq_true_iff]
  constructor
  · intro h
    push_neg at h
    rcases h with ⟨h1, h2⟩
    by_cases he : a.priority = b.priority
    · exact Or.inr ⟨he, by omega⟩
    · left; omega
  · intro h
    push_neg
    constructor
    · rcases h with h | ⟨he, _⟩ <;> omega
    · intro he
      rcases h with h | ⟨_, hle⟩ <;> omega

theorem qiLT_irrefl (a : QueueItem) : qiLT a a = false := by
  rw [qiLT_eq_false_iff]; right; omega

theorem qiLT_asymm {a b : QueueItem} (h : qiLT a b = true) : qiLT b a = false := by
  rw [qiLT_eq_true_iff] at h
  rw [qiLT_eq_false_iff]
  rcases h with h | ⟨he, hl⟩
  · left; exact h
  · right; omega

theorem qiLT_negtrans {a b c : QueueItem} (h1 : qiLT b a = false)
    (h2 : qiLT c b = false) : qiLT c a = false := by
  rw [qiLT_eq_false_iff] at h1 h2 ⊢
  rcases h1 with h1 | ⟨e1, l1⟩ <;> rcases h2 with h2 | ⟨e2, l2⟩
  · left; omega
  · left; omega
  · left; omega
  · right; omega

/-! ### `popMin` and `drainFuel` lemmas -/

theorem popMin_eq_none_iff (l : List QueueItem) : popMin l = none ↔ l = [] := by
  cases l with
  | nil => simp [popMin]
  | cons x xs =>
    simp only [popMin]
    cases h : popMin xs with
    | none => simp
    | some r =>
      obtain ⟨m, rest⟩ := r
      by_cases hlt : qiLT m x = true <;> simp [hlt]

theorem popMin_length {l : List QueueItem} {m : QueueItem} {rest : List QueueItem}
    (h : popMin l = some (m, rest)) : rest.length + 1 = l.length := by
  induction l generalizing m rest with
  | nil => simp [popMin] at h
  | cons x xs ih =>
    simp only [popMin] at h
    cases h2 : popMin xs with
    | none =>
      rw [h2] at h
      have : xs = [] := (popMin_eq_none_iff xs).mp h2
      subst this
      simp at h
      simp [h.2.symm]
    | some r =>
      obtain ⟨m', rest'⟩ := r
      rw [h2] at h
      by_cases hlt : qiLT m' x = true
      · simp [hlt] at h
        obtain ⟨he1, he2⟩ := h
        subst he1
        rw [← he2]
        have := ih h2
        simp at this ⊢
        omega
      · simp [hlt] at h
        obtain ⟨he1, he2⟩ := h
        rw [← he2]
        simp

theorem popMin_mem {l : List QueueItem} {m : QueueItem} {rest : List QueueItem}
    (h : popMin l = some (m, rest)) : m ∈ l := by
  induction l generalizing m rest with
  | nil => simp [popMin] at h
  | cons x xs ih =>
    simp only [popMin] at h
    cases h2 : popMin xs with
    | none =>
      rw [h2] at h
      simp at h
      simp [h.1.symm]
    | some r =>
      obtain ⟨m', rest'⟩ := r
      rw [h2] at h
      by_cases hlt : qiLT m' x = true
      · simp [hlt] at h
        exact List.mem_cons_of_mem _ (h.1 ▸ ih h2)
      · simp [hlt] at h
        simp [h.1.symm]

theorem popMin_subset {l : List QueueItem} {m : QueueItem} {rest : List QueueItem}
    (h : popMin l = some (m, rest)) : ∀ y ∈ rest, y ∈ l := by
  induction l generalizing m rest with
  | nil => simp [popMin] at h
  | cons x xs ih =>
    simp only [popMin] at h
    cases h2 : popMin xs with
    | none =>
      rw [h2] at h
      simp at h
      simp [h.2]
    | some r =>
      obtain ⟨m', rest'⟩ := r
      rw [h2] at h
      by_cases hlt : qiLT m' x = true
      · simp [hlt] at h
        intro y hy
        rw [← h.2] at hy
        rcases List.mem_cons.mp hy with hy | hy
        · simp [hy]
        · exact List.mem_cons_of_mem _ (ih h2 y hy)
      · simp [hlt] at h
        intro y hy
        rw [← h.2] at hy
        exact List.mem_cons_of_mem _ hy

theorem popMin_min {l : List QueueItem} {m : QueueItem} {rest : List QueueItem}
    (h : popMin l = some (m, rest)) : ∀ y ∈ l, qiLT y m = false := by
  induction l generalizing m rest with
  | nil => simp [popMin] at h
  | cons x xs ih =>
    simp only [popMin] at h
    cases h2 : popMin xs with
    | none =>
      rw [h2] at h
      have : xs = [] := (popMin_eq_none_iff xs).mp h2
      subst this
      simp at h
      intro y hy
      simp at hy
      subst hy
      rw [← h.1]
      exact qiLT_irrefl y
    | some r =>
      obtain ⟨m', rest'⟩ := r
      rw [h2] at h
      by_cases hlt : qiLT m' x = true
      · simp [hlt] at h
        intro y hy
        rw [← h.1]
        rcases List.mem_cons.mp hy with hy | hy
        · subst hy; exact qiLT_asymm hlt
        · exact ih h2 y hy
      · simp [hlt] at h
        have hlt2 : qiLT m' x = false := by simpa using hlt
        intro y hy
        rw [← h.1]
        rcases List.mem_cons.mp hy with hy | hy
        · subst hy; exact qiLT_irrefl y
        · exact qiLT_negtrans hlt2 (ih h2 y hy)

theorem drainFuel_subset : ∀ (n : Nat) (l : List QueueItem),
    ∀ y ∈ drainFuel n l, y ∈ l := by
  intro n
  induction n with
  | zero => intro l y hy; simp [drainFuel] at hy
  | succ n ih =>
    intro l y hy
    simp only [drainFuel] at hy
    cases h : popMin l with
    | none => rw [h] at hy; simp at hy
    | some r =>
      obtain ⟨m, rest⟩ := r
      rw [h] at hy
      rcases List.mem_cons.mp hy with hy | hy
      · subst hy; exact popMin_mem h
      · exact popMin_subset h y (ih rest y hy)

theorem drainFuel_sorted : ∀ (n : Nat) (l : List QueueItem),
    (drainFuel n l).Pairwise (fun a b => qiLT b a = false) := by
  intro n
  induction n with
  | zero => intro l; simp [drainFuel]
  | succ n ih =>
    intro l
    simp only [drainFuel]
    cases h : popMin l with
    | none => simp
    | some r =>
      obtain ⟨m, rest⟩ := r
      refine List.Pairwise.cons ?_ (ih rest)
      intro b hb
      exact popMin_min h b (popMin_subset h b (drainFuel_subset n rest b hb))

/-! ### `get_next` structural lemmas -/

/-- Every successful `getNextAux` pop: the returned id is not tracked as
cancelled, it gets a fresh unset cancellation flag and an active-download
entry, and the status/book-data/timestamp/timeout maps are untouched. -/
theorem getNextAux_spec : ∀ (n : Nat) (s : BookQueue) (r : String × BookQueue),
    BookQueue.getNextAux n s = some r →
      dlookup s.status r.1 ≠ some QueueStatus.CANCELLED ∧
      dlookup r.2.cancel_flags r.1 = some false ∧
      r.1 ∈ r.2.active_downloads ∧
      r.2.status = s.status ∧
      r.2.book_data = s.book_data ∧
      r.2.status_timestamps = s.status_timestamps ∧
      r.2.status_timeout = s.status_timeout := by
  intro n
  induction n with
  | zero => intro s r h; simp [BookQueue.getNextAux] at h
  | succ n ih =>
    intro s r h
    simp only [BookQueue.getNextAux] at h
    cases hp : popMin s.queue with
    | none => rw [hp] at h; simp at h
    | some q =>
      obtain ⟨item, rest⟩ := q
      rw [hp] at h
      simp only at h
      by_cases hc : dlookup s.status item.book_id = some QueueStatus.CANCELLED
      · rw [if_pos hc] at h
        have h2 := ih _ r h
        exact h2
      · rw [if_neg hc] at h
        simp at h
        rw [← h]
        refine ⟨hc, ?_, ?_, rfl, rfl, rfl, rfl⟩
        · exact dlookup_dinsert_self _ _ _
        · exact mem_adInsert_self _ _

/-- A `get_next` that pops the head directly (no cancelled entry in front). -/
theorem get_next_head {s : BookQueue} {item : QueueItem} {rest : List QueueItem}
    (hp : popMin s.queue = some (item, rest))
    (hc : dlookup s.status item.book_id ≠ some QueueStatus.CANCELLED) :
    s.get_next = some (item.book_id,
      { s with queue := rest,
               cancel_flags := dinsert s.cancel_flags item.book_id false,
               active_downloads := adInsert s.active_downloads item.book_id }) := by
  unfold BookQueue.get_next
  have hne : s.queue ≠ [] := by
    intro h
    rw [h] at hp
    simp [popMin] at hp
  cases hq : s.queue with
  | nil => exact absurd hq hne
  | cons x xs =>
    rw [hq] at hp
    simp only [hq, List.length_cons, BookQueue.getNextAux, hq, hp]
    rw [if_neg hc]

/-- An empty queue yields `none`. -/
theorem get_next_empty {s : BookQueue} (h : s.queue = []) : s.get_next = none := by
  unfold BookQueue.get_next
  rw [h]
  simp [BookQueue.getNextAux]

/-- On a state whose queued entries are never tracked-cancelled, repeatedly
calling `get_next` returns exactly the ids of the fully drained queue. -/
theorem trace_eq_drain : ∀ (n : Nat) (s : BookQueue),
    (∀ it ∈ s.queue, dlookup s.status it.book_id ≠ some QueueStatus.CANCELLED) →
    s.queue.length ≤ n →
    getNextTraceIds n s = (drainFuel n s.queue).map QueueItem.book_id := by
  intro n
  induction n with
  | zero =>
    intro s _ hlen
    simp [getNextTraceIds, drainFuel]
  | succ n ih =>
    intro s hnc hlen
    simp only [getNextTraceIds, drainFuel]
    cases hp : popMin s.queue with
    | none =>
      have : s.queue = [] := (popMin_eq_none_iff _).mp hp
      rw [get_next_empty this]
      simp
    | some q =>
      obtain ⟨item, rest⟩ := q
      have hitem : item ∈ s.queue := popMin_mem hp
      rw [get_next_head hp (hnc item hitem)]
      simp only [List.map_cons, List.cons.injEq]
      refine ⟨by trivial, ?_⟩
      have hrest : ∀ it ∈ rest, it ∈ s.queue := popMin_subset hp
      have hlen2 : rest.length + 1 = s.queue.length := popMin_length hp
      exact ih _ (fun it hit => hnc it (hrest it hit)) (by show rest.length ≤ n; omega)

/-! ### Add-only reachable states (for the ordering claim) -/

theorem allQueued_add {s : BookQueue} (h : allQueued s) (book_id : String)
    (info : BookInfo) (priority : Int) (now : Nat) :
    allQueued (s.add book_id info priority now) := by
  unfold BookQueue.add
  cases hl : dlookup s.status book_id with
  | none =>
    intro p hp
    rcases mem_dinsert hp with h2 | h2
    · exact h p h2
    · simp [h2]
  | some st =>
    have : st = QueueStatus.QUEUED := h _ (dlookup_mem hl)
    subst this
    simp only [List.mem_cons]
    intro p hp
    simp at hp
    exact h p hp

theorem allQueued_applyAdds (calls : List (String × BookInfo × Int × Nat)) :
    ∀ (s : BookQueue), allQueued s → allQueued (applyAdds calls s) := by
  induction calls with
  | nil => intro s h; exact h
  | cons c rest ih =>
    intro s h
    exact ih _ (allQueued_add h c.1 c.2.1 c.2.2.1 c.2.2.2)

theorem allQueued_no_cancel {s : BookQueue} (h : allQueued s) (id : String) :
    dlookup s.status id ≠ some QueueStatus.CANCELLED := by
  intro hc
  have := h _ (dlookup_mem hc)
  simp at this

/-! ### Claim C1 -/

/-- C1: after any sequence of `add` calls (no cancellation or
reprioritization), repeated `get_next` calls return exactly the ids of the
drained queue, and that drained sequence is pairwise non-decreasing in
`(priority, added_time)` (strictly lower priority value first, earlier
`added_time` first among equal priorities).  Concretely, adding A(priority 5)
then B(priority 1) makes `get_next` yield B then A. -/
theorem C1_pop_order (calls : List (String × BookInfo × Int × Nat)) (timeout : Nat) :
    (getNextTraceIds (applyAdds calls (initQ timeout)).queue.length
        (applyAdds calls (initQ timeout)) =
      (drainFuel (applyAdds calls (initQ timeout)).queue.length
        (applyAdds calls (initQ timeout)).queue).map QueueItem.book_id ∧
    (drainFuel (applyAdds calls (initQ timeout)).queue.length
        (applyAdds calls (initQ timeout)).queue).Pairwise
      (fun a b => qiLT b a = false)) ∧
    getNextTraceIds c1ex.queue.length c1ex = ["B", "A"] := by
  have hq : allQueued (applyAdds calls (initQ timeout)) := by
    refine allQueued_applyAdds _ _ ?_
    intro p hp
    simp [initQ] at hp
  refine ⟨⟨?_, drainFuel_sorted _ _⟩, by decide⟩
  exact trace_eq_drain _ _ (fun it _ => allQueued_no_cancel hq it.book_id) le_rfl

/-! ### Claim C2 -/

/-- C2 counterexample: after add("x"), cancel_download("x"),
clear_completed(), the id "x" has no tracked status at all (it was removed
from the registry), yet `get_next` returns "x" instead of skipping it —
refuting the claim that entries for jobs removed from the registry are
skipped rather than returned. -/
theorem C2_counterexample :
    dlookup c2s3.status "x" = none ∧
    c2s3.queue = [QueueItem.mk "x" 0 0] ∧
    (BookQueue.get_next c2s3).map Prod.fst = some "x" := by decide

/-- C2 amended: `get_next` never returns an id that is currently *tracked*
with status `cancelled` (so after add(X) then cancel_download(X), while X's
cancelled status remains in the registry, get_next never returns X); but an
entry whose id was removed from the registry entirely is returned, not
skipped (see the counterexample). -/
theorem C2_skip_tracked_cancelled (s : BookQueue) (id : String)
    (h : (BookQueue.get_next s).map Prod.fst = some id) :
    dlookup s.status id ≠ some QueueStatus.CANCELLED := by
  cases hg : s.get_next with
  | none => rw [hg] at h; simp at h
  | some r =>
    rw [hg] at h
    simp at h
    have hs := getNextAux_spec _ _ _ hg
    rw [← h]
    exact hs.1

theorem C2_skip_tracked_cancelled_witness :
    dlookup c2ws.status "a" ≠ some QueueStatus.CANCELLED :=
  C2_skip_tracked_cancelled c2ws "a" (by decide)

/-! ### Claim C3 -/

/-- C3 counterexample: immediately after dispatch (`get_next`) a live
cancellation flag exists for "x" while its status is still `queued`, not
`downloading` (`get_next` performs no status transition) — refuting the
claimed "flag exists iff status is downloading" invariant. -/
theorem C3_counterexample :
    BookQueue.get_next c3s1 = some ("x", c3s2) ∧
    dlookup c3s2.cancel_flags "x" = some false ∧
    "x" ∈ c3s2.active_downloads ∧
    dlookup c3s2.status "x" = some QueueStatus.QUEUED := by decide

/-- C3 amended: the cancellation flag is minted by `get_next` while the job's
status stays whatever it was (normally `queued`); a public `update_status`
into available/error/done/cancelled retires the flag and the active-download
entry, but `cancel_download` of a `downloading` job retires neither — it sets
the existing flag (leaving it in the table) and leaves the active-download
set unchanged. -/
theorem C3_token_lifecycle (s : BookQueue) (id : String) (st : QueueStatus)
    (now : Nat) :
    (st ∈ [QueueStatus.AVAILABLE, QueueStatus.ERROR, QueueStatus.DONE,
           QueueStatus.CANCELLED] →
      dlookup (BookQueue.update_status s id st now).cancel_flags id = none ∧
      id ∉ (BookQueue.update_status s id st now).active_downloads) ∧
    (dlookup s.status id = some QueueStatus.DOWNLOADING →
      (BookQueue.cancel_download s id now).1 = true ∧
      dlookup (BookQueue.cancel_download s id now).2.status id =
        some QueueStatus.CANCELLED ∧
      dlookup (BookQueue.cancel_download s id now).2.cancel_flags id =
        (dlookup s.cancel_flags id).map (fun _ => true) ∧
      (BookQueue.cancel_download s id now).2.active_downloads =
        s.active_downloads) ∧
    (∀ r : String × BookQueue, BookQueue.get_next s = some r →
      dlookup r.2.cancel_flags r.1 = some false ∧
      r.1 ∈ r.2.active_downloads ∧
      r.2.status = s.status) := by
  refine ⟨?_, ?_, ?_⟩
  · intro hst
    unfold BookQueue.update_status
    rw [if_pos hst]
    exact ⟨dlookup_derase_self _ _, not_mem_sErase_self _ _⟩
  · intro hdl
    unfold BookQueue.cancel_download
    rw [hdl]
    simp only [BookQueue._update_status]
    refine ⟨by trivial, ?_, ?_, by trivial⟩
    · exact dlookup_dinsert_self _ _ _
    · exact dlookup_dupdate_self _ _ _
  · intro r hr
    have hs := getNextAux_spec _ _ _ hr
    exact ⟨hs.2.1, hs.2.2.1, hs.2.2.2.1⟩

theorem C3_token_lifecycle_witness :
    (BookQueue.cancel_download c3ws "x" 2).1 = true ∧
    dlookup (BookQueue.cancel_download c3ws "x" 2).2.status "x" =
      some QueueStatus.CANCELLED ∧
    dlookup (BookQueue.cancel_download c3ws "x" 2).2.cancel_flags "x" =
      (dlookup c3ws.cancel_flags "x").map (fun _ => true) ∧
    (BookQueue.cancel_download c3ws "x" 2).2.active_downloads =
      c3ws.active_downloads :=
  (C3_token_lifecycle c3ws "x" QueueStatus.DONE 2).2.1 (by decide)

/-! ### Claim C4 -/

/-- C4 (code-bug evaluation): `get_next` hands out ("x", flag), and with no
intervening status update a `cancel_download("x")` succeeds and marks the
status `cancelled`, but the flag the worker holds is still unset (the
`queued` branch of `cancel_download` never signals it, because `get_next`
left the status at `queued` instead of `downloading`) — the worker's token
does not read as signaled, contradicting the claim. -/
theorem C4_bug_eval :
    BookQueue.get_next c4s1 = some ("x", c4s2) ∧
    dlookup c4s2.cancel_flags "x" = some false ∧
    (BookQueue.cancel_download c4s2 "x" 1).1 = true ∧
    dlookup (BookQueue.cancel_download c4s2 "x" 1).2.status "x" =
      some QueueStatus.CANCELLED ∧
    dlookup (BookQueue.cancel_download c4s2 "x" 1).2.cancel_flags "x" =
      some false := by decide

/-! ### Claim C5 -/

/-- C5: `cancel_download` succeeds exactly on `queued`/`downloading` jobs;
any failure leaves the state byte-for-byte unchanged; and after a successful
cancel a second cancel of the same id fails (idempotence: true at most once). -/
theorem C5_cancel_success_iff (s : BookQueue) (id : String) (now now2 : Nat) :
    ((BookQueue.cancel_download s id now).1 = true ↔
      (dlookup s.status id = some QueueStatus.QUEUED ∨
       dlookup s.status id = some QueueStatus.DOWNLOADING)) ∧
    ((BookQueue.cancel_download s id now).1 = false →
      (BookQueue.cancel_download s id now).2 = s) ∧
    ((BookQueue.cancel_download s id now).1 = true →
      (BookQueue.cancel_download (BookQueue.cancel_download s id now).2 id now2).1
        = false) := by
  cases h : dlookup s.status id with
  | none =>
    simp only [BookQueue.cancel_download, h]
    refine ⟨by simp, fun _ => by trivial, by simp⟩
  | some st =>
    cases st with
    | QUEUED =>
      simp only [BookQueue.cancel_download, h, BookQueue._update_status]
      refine ⟨by simp, by simp, ?_⟩
      intro _
      rw [dlookup_dinsert_self]
    | DOWNLOADING =>
      simp only [BookQueue.cancel_download, h, BookQueue._update_status]
      refine ⟨by simp, by simp, ?_⟩
      intro _
      rw [dlookup_dinsert_self]
    | AVAILABLE =>
      simp only [BookQueue.cancel_download, h]
      refine ⟨by simp, fun _ => by trivial, by simp⟩
    | ERROR =>
      simp only [BookQueue.cancel_download, h]
      refine ⟨by simp, fun _ => by trivial, by simp⟩
    | DONE =>
      simp only [BookQueue.cancel_download, h]
      refine ⟨by simp, fun _ => by trivial, by simp⟩
    | CANCELLED =>
      simp only [BookQueue.cancel_download, h]
      refine ⟨by simp, fun _ => by trivial, by simp⟩

theorem C5_cancel_success_iff_witness :
    ((BookQueue.cancel_download c5ws "x" 1).1 = true ↔
      (dlookup c5ws.status "x" = some QueueStatus.QUEUED ∨
       dlookup c5ws.status "x" = some QueueStatus.DOWNLOADING)) ∧
    ((BookQueue.cancel_download c5ws "x" 1).1 = false →
      (BookQueue.cancel_download c5ws "x" 1).2 = c5ws) ∧
    ((BookQueue.cancel_download c5ws "x" 1).1 = true →
      (BookQueue.cancel_download (BookQueue.cancel_download c5ws "x" 1).2 "x" 2).1
        = false) :=
  C5_cancel_success_iff c5ws "x" 1 2

/-! ### Claim C7 -/

/-- C7 counterexample: `update_status` on the unknown id "x" in a fresh queue
is not silently ignored — it creates brand-new status and timestamp entries,
refuting the claim that all three update operations leave the state
completely unchanged for unknown ids. -/
theorem C7_counterexample :
    BookQueue.update_status (initQ 3600) "x" QueueStatus.DONE 5 ≠ initQ 3600 ∧
    dlookup (BookQueue.update_status (initQ 3600) "x" QueueStatus.DONE 5).status "x"
      = some QueueStatus.DONE ∧
    dlookup (BookQueue.update_status (initQ 3600) "x" QueueStatus.DONE 5).status_timestamps "x"
      = some 5 := by decide

/-- C7 amended: `update_progress` and `update_download_path` on an id with no
metadata entry are silently ignored (the state is unchanged, no entry is
created); `update_status` on an untracked id is *not* ignored — it creates a
fresh status entry and timestamp for the id (while leaving the metadata map
and the dispatch queue unchanged). -/
theorem C7_unknown_id_updates (s : BookQueue) (id : String) (v : Int)
    (pth : String) (st : QueueStatus) (now : Nat) :
    (dlookup s.book_data id = none →
      BookQueue.update_progress s id v = s ∧
      BookQueue.update_download_path s id pth = s) ∧
    (dlookup s.status id = none →
      dlookup (BookQueue.update_status s id st now).status id = some st ∧
      dlookup (BookQueue.update_status s id st now).status_timestamps id = some now ∧
      (BookQueue.update_status s id st now).book_data = s.book_data ∧
      (BookQueue.update_status s id st now).queue = s.queue) := by
  constructor
  · intro h
    constructor
    · unfold BookQueue.update_progress
      rw [h]
      simp
    · unfold BookQueue.update_download_path
      rw [h]
      simp
  · intro _
    unfold BookQueue.update_status BookQueue._update_status
    split_ifs <;>
      exact ⟨dlookup_dinsert_self _ _ _, dlookup_dinsert_self _ _ _, rfl, rfl⟩

theorem C7_unknown_id_updates_witness :
    (BookQueue.update_progress (initQ 3600) "y" 3 = initQ 3600 ∧
     BookQueue.update_download_path (initQ 3600) "y" "/p" = initQ 3600) ∧
    dlookup (BookQueue.update_status (initQ 3600) "y" QueueStatus.DONE 5).status "y"
      = some QueueStatus.DONE :=
  ⟨(C7_unknown_id_updates (initQ 3600) "y" 3 "/p" QueueStatus.DONE 5).1 (by decide),
   ((C7_unknown_id_updates (initQ 3600) "y" 3 "/p" QueueStatus.DONE 5).2 (by decide)).1⟩

/-! ### Claim C8 -/

/-- C8: `add` on an id tracked in a non-terminal status is a byte-for-byte
no-op; on an untracked id or one in a terminal status it records status
`queued` with timestamp `now`, stores the metadata (with the call's
priority), and appends the dispatch-queue entry; adding twice from untracked
changes nothing the second time, and a single add from a fresh queue leaves
exactly one status entry and one queue entry for the id. -/
theorem C8_add_dedup (s : BookQueue) (id : String) (info info2 : BookInfo)
    (p p2 : Int) (now now2 t : Nat) :
    (∀ st, dlookup s.status id = some st →
      st ∉ [QueueStatus.ERROR, QueueStatus.DONE, QueueStatus.CANCELLED] →
      BookQueue.add s id info p now = s) ∧
    ((dlookup s.status id = none ∨
      (∃ st, dlookup s.status id = some st ∧
        st ∈ [QueueStatus.ERROR, QueueStatus.DONE, QueueStatus.CANCELLED])) →
      dlookup (BookQueue.add s id info p now).status id = some QueueStatus.QUEUED ∧
      dlookup (BookQueue.add s id info p now).status_timestamps id = some now ∧
      dlookup (BookQueue.add s id info p now).book_data id =
        some { info with priority := p } ∧
      (BookQueue.add s id info p now).queue = s.queue ++ [QueueItem.mk id p now]) ∧
    (dlookup s.status id = none →
      BookQueue.add (BookQueue.add s id info p now) id info2 p2 now2 =
        BookQueue.add s id info p now) ∧
    (((BookQueue.add (initQ t) id info p now).status.filter
        (fun q => decide (q.1 = id))).length = 1 ∧
     ((BookQueue.add (initQ t) id info p now).queue.filter
        (fun it => decide (it.book_id = id))).length = 1) := by
  have hfresh : ∀ (s2 : BookQueue),
      dlookup (BookQueue.addFresh s2 id info p now).status id =
        some QueueStatus.QUEUED ∧
      dlookup (BookQueue.addFresh s2 id info p now).status_timestamps id =
        some now ∧
      dlookup (BookQueue.addFresh s2 id info p now).book_data id =
        some { info with priority := p } ∧
      (BookQueue.addFresh s2 id info p now).queue =
        s2.queue ++ [QueueItem.mk id p now] := by
    intro s2
    unfold BookQueue.addFresh BookQueue._update_status
    exact ⟨dlookup_dinsert_self _ _ _, dlookup_dinsert_self _ _ _,
      dlookup_dinsert_self _ _ _, rfl⟩
  have noop : ∀ (s2 : BookQueue) (i2 : BookInfo) (pp : Int) (nn : Nat),
      dlookup s2.status id = some QueueStatus.QUEUED →
      BookQueue.add s2 id i2 pp nn = s2 := by
    intro s2 i2 pp nn h2
    unfold BookQueue.add
    simp only [h2]
    rw [if_neg (by decide)]
  refine ⟨?_, ?_, ?_, ?_⟩
  · intro st h hst
    unfold BookQueue.add
    simp only [h]
    rw [if_neg hst]
  · intro h
    rcases h with h | ⟨st, h, hst⟩
    · unfold BookQueue.add
      simp only [h]
      exact hfresh s
    · unfold BookQueue.add
      simp only [h]
      rw [if_pos hst]
      exact hfresh s
  · intro h
    have h1 : dlookup (BookQueue.add s id info p now).status id =
        some QueueStatus.QUEUED := by
      unfold BookQueue.add
      simp only [h]
      exact (hfresh s).1
    exact noop _ info2 p2 now2 h1
  · constructor
    · have h1 : dlookup (initQ t).status id = none := rfl
      unfold BookQueue.add
      simp only [h1]
      unfold BookQueue.addFresh BookQueue._update_status initQ
      simp [dinsert, List.filter]
    · have h1 : dlookup (initQ t).status id = none := rfl
      unfold BookQueue.add
      simp only [h1]
      unfold BookQueue.addFresh BookQueue._update_status initQ
      simp [List.filter]

theorem C8_add_dedup_witness :
    BookQueue.add c8ws "x" (mkInfo "x") 2 7 = c8ws :=
  (C8_add_dedup c8ws "x" (mkInfo "x") (mkInfo "x") 2 2 7 7 3600).1
    QueueStatus.QUEUED (by decide) (by decide)

/-! ### Claim C9 -/

/-- C9: `set_priority` succeeds only while the id's status is `queued` and
returns `(false, s)` unchanged otherwise; on the queued path it rewrites the
priority of that id's queue entries while keeping every `added_time` and
every other id's entries untouched, changes no status/timestamp/cancellation
state, touches no other id's metadata, and subsequent `get_next` calls follow
the new (priority, added time) order — concretely, after A(priority 5),
B(priority 1), reprioritizing A to 0 makes `get_next` return A before B. -/
theorem C9_set_priority_spec (s : BookQueue) (id : String) (p : Int) :
    ((BookQueue.set_priority s id p).1 = true →
      dlookup s.status id = some QueueStatus.QUEUED) ∧
    (dlookup s.status id ≠ some QueueStatus.QUEUED →
      BookQueue.set_priority s id p = (false, s)) ∧
    ((BookQueue.set_priority s id p).2.queue =
      if dlookup s.status id = some QueueStatus.QUEUED then
        s.queue.map (fun it =>
          if it.book_id = id then { it with priority := p } else it)
      else s.queue) ∧
    ((BookQueue.set_priority s id p).2.status = s.status ∧
     (BookQueue.set_priority s id p).2.status_timestamps = s.status_timestamps ∧
     (BookQueue.set_priority s id p).2.cancel_flags = s.cancel_flags ∧
     (BookQueue.set_priority s id p).2.active_downloads = s.active_downloads) ∧
    (∀ id2, id2 ≠ id →
      dlookup (BookQueue.set_priority s id p).2.book_data id2 =
        dlookup s.book_data id2) ∧
    ((∀ it ∈ s.queue, dlookup s.status it.book_id ≠ some QueueStatus.CANCELLED) →
      getNextTraceIds (BookQueue.set_priority s id p).2.queue.length
          (BookQueue.set_priority s id p).2 =
        (drainFuel (BookQueue.set_priority s id p).2.queue.length
          (BookQueue.set_priority s id p).2.queue).map QueueItem.book_id ∧
      (drainFuel (BookQueue.set_priority s id p).2.queue.length
          (BookQueue.set_priority s id p).2.queue).Pairwise
        (fun a b => qiLT b a = false)) ∧
    ((BookQueue.set_priority c9ex "A" 0).1 = true ∧
     getNextTraceIds (BookQueue.set_priority c9ex "A" 0).2.queue.length
       (BookQueue.set_priority c9ex "A" 0).2 = ["A", "B"]) := by
  have hnc2 : ∀ (s2 : BookQueue),
      (∀ it ∈ s2.queue, dlookup s2.status it.book_id ≠ some QueueStatus.CANCELLED) →
      getNextTraceIds s2.queue.length s2 =
        (drainFuel s2.queue.length s2.queue).map QueueItem.book_id ∧
      (drainFuel s2.queue.length s2.queue).Pairwise
        (fun a b => qiLT b a = false) :=
    fun s2 h => ⟨trace_eq_drain _ _ h le_rfl, drainFuel_sorted _ _⟩
  by_cases hq : dlookup s.status id = some QueueStatus.QUEUED
  · have hset : BookQueue.set_priority s id p =
        ((s.queue.any fun it => decide (it.book_id = id)),
         { s with
             queue := s.queue.map (fun it =>
               if it.book_id = id then { it with priority := p } else it),
             book_data :=
               if (s.queue.any fun it => decide (it.book_id = id)) = true then
                 dupdate s.book_data id (fun b => { b with priority := p })
               else s.book_data }) := by
      unfold BookQueue.set_priority
      rw [if_pos hq]
    rw [hset]
    refine ⟨fun _ => hq, fun hc => absurd hq hc, by rw [if_pos hq],
      ⟨rfl, rfl, rfl, rfl⟩, ?_, ?_, by decide⟩
    · intro id2 hne
      show dlookup (if (s.queue.any fun it => decide (it.book_id = id)) = true then
          dupdate s.book_data id (fun b => { b with priority := p })
        else s.book_data) id2 = dlookup s.book_data id2
      split
      · exact dlookup_dupdate_other _ _ _ _ hne
      · rfl
    · intro hnc
      refine hnc2 _ ?_
      intro it hit
      have hit2 : it ∈ s.queue.map (fun it =>
          if it.book_id = id then { it with priority := p } else it) := hit
      show dlookup s.status it.book_id ≠ some QueueStatus.CANCELLED
      simp only [List.mem_map] at hit2
      obtain ⟨it0, hit0, heq⟩ := hit2
      have hid : it.book_id = it0.book_id := by
        rw [← heq]
        by_cases hb : it0.book_id = id
        · simp [hb]
        · simp [hb]
      rw [hid]
      exact hnc it0 hit0
  · unfold BookQueue.set_priority
    rw [if_neg hq]
    refine ⟨by simp, fun _ => rfl, by rw [if_neg hq], ⟨rfl, rfl, rfl, rfl⟩,
      fun id2 _ => rfl, ?_, by decide⟩
    intro hnc
    exact hnc2 s hnc

theorem C9_set_priority_spec_witness :
    dlookup c9ex.status "A" = some QueueStatus.QUEUED :=
  (C9_set_priority_spec c9ex "A" 0).1 (by decide)

/-! ### `refresh` analysis lemmas -/

theorem clearPath_state (pe : String → Bool) (s : BookQueue) (id : String)
    (info : BookInfo) :
    (clearPath pe s id info).1.status = s.status ∧
    (clearPath pe s id info).1.status_timestamps = s.status_timestamps ∧
    (clearPath pe s id info).1.cancel_flags = s.cancel_flags ∧
    (clearPath pe s id info).1.active_downloads = s.active_downloads ∧
    (clearPath pe s id info).1.queue = s.queue ∧
    (clearPath pe s id info).1.status_timeout = s.status_timeout := by
  unfold clearPath
  split <;> exact ⟨rfl, rfl, rfl, rfl, rfl, rfl⟩

theorem clearPath_book_data_other (pe : String → Bool) (s : BookQueue)
    (id : String) (info : BookInfo) (k : String) (hk : k ≠ id) :
    dlookup (clearPath pe s id info).1.book_data k = dlookup s.book_data k := by
  unfold clearPath
  split
  · exact dlookup_dupdate_other _ _ _ _ hk
  · rfl

theorem clearPath_kept (pe : String → Bool) (s : BookQueue) (id : String)
    (info : BookInfo) (hpe : pe (info.download_path.getD "") = true) :
    clearPath pe s id info = (s, info.download_path) := by
  unfold clearPath
  rw [if_neg]
  intro hc
  rw [hpe] at hc
  exact absurd hc.2 (by simp)

theorem refreshEntry_frame {pe : String → Bool} {now : Nat} {s : BookQueue}
    {e : String × QueueStatus} {s1 : BookQueue} {rem : Bool}
    (h : refreshEntry pe now s e = some (s1, rem)) :
    s1.cancel_flags = s.cancel_flags ∧ s1.active_downloads = s.active_downloads ∧
    s1.queue = s.queue ∧ s1.status_timeout = s.status_timeout ∧
    ∀ k, k ≠ e.1 →
      dlookup s1.status k = dlookup s.status k ∧
      dlookup s1.status_timestamps k = dlookup s.status_timestamps k ∧
      dlookup s1.book_data k = dlookup s.book_data k := by
  unfold refreshEntry at h
  cases hbd : dlookup s.book_data e.1 with
  | none => rw [hbd] at h; simp at h
  | some info =>
    rw [hbd] at h
    simp only [Option.some.injEq, Prod.mk.injEq] at h
    obtain ⟨hs1, _⟩ := h
    obtain ⟨hst, hts, hfl, had, hqu, hto⟩ := clearPath_state pe s e.1 info
    by_cases hc : e.2 = QueueStatus.AVAILABLE ∧
        pyTruthy (clearPath pe s e.1 info).2 = false
    · rw [if_pos hc] at hs1
      subst hs1
      simp only [BookQueue._update_status]
      refine ⟨hfl, had, hqu, hto, ?_⟩
      intro k hk
      rw [dlookup_dinsert_other _ _ _ _ hk, dlookup_dinsert_other _ _ _ _ hk,
        hst, hts]
      exact ⟨rfl, rfl, clearPath_book_data_other pe s e.1 info k hk⟩
    · rw [if_neg hc] at hs1
      subst hs1
      refine ⟨hfl, had, hqu, hto, ?_⟩
      intro k hk
      rw [hst, hts]
      exact ⟨rfl, rfl, clearPath_book_data_other pe s e.1 info k hk⟩

theorem refreshEntry_nondemote {pe : String → Bool} {now : Nat} {s : BookQueue}
    {e : String × QueueStatus} {s1 : BookQueue} {rem : Bool}
    (h : refreshEntry pe now s e = some (s1, rem))
    (hna : e.2 ≠ QueueStatus.AVAILABLE) :
    dlookup s1.status e.1 = dlookup s.status e.1 ∧
    dlookup s1.status_timestamps e.1 = dlookup s.status_timestamps e.1 ∧
    rem = ((match dlookup s.status_timestamps e.1 with
            | some t => decide (now - t > s.status_timeout)
            | none => false) &&
           decide (e.2 ∈ [QueueStatus.DONE, QueueStatus.ERROR,
             QueueStatus.AVAILABLE, QueueStatus.CANCELLED])) := by
  unfold refreshEntry at h
  cases hbd : dlookup s.book_data e.1 with
  | none => rw [hbd] at h; simp at h
  | some info =>
    rw [hbd] at h
    simp only [Option.some.injEq, Prod.mk.injEq] at h
    obtain ⟨hs1, hrem⟩ := h
    obtain ⟨hst, hts, _, _, _, hto⟩ := clearPath_state pe s e.1 info
    have hc : ¬ (e.2 = QueueStatus.AVAILABLE ∧
        pyTruthy (clearPath pe s e.1 info).2 = false) := fun hc => hna hc.1
    rw [if_neg hc] at hs1 hrem
    subst hs1
    rw [hts, hto] at hrem
    rw [hst, hts]
    exact ⟨rfl, rfl, hrem.symm⟩

theorem refreshEntry_available_kept {pe : String → Bool} {now : Nat}
    {s : BookQueue} {e : String × QueueStatus} {s1 : BookQueue} {rem : Bool}
    {info : BookInfo}
    (h : refreshEntry pe now s e = some (s1, rem))
    (hav : e.2 = QueueStatus.AVAILABLE)
    (hbd : dlookup s.book_data e.1 = some info)
    (hp : pyTruthy info.download_path = true)
    (hpe : pe (info.download_path.getD "") = true) :
    s1 = s ∧
    rem = (match dlookup s.status_timestamps e.1 with
           | some t => decide (now - t > s.status_timeout)
           | none => false) := by
  unfold refreshEntry at h
  rw [hbd] at h
  simp only [Option.some.injEq, Prod.mk.injEq] at h
  obtain ⟨hs1, hrem⟩ := h
  have hk := clearPath_kept pe s e.1 info hpe
  have hc : ¬ (e.2 = QueueStatus.AVAILABLE ∧
      pyTruthy (clearPath pe s e.1 info).2 = false) := by
    intro hc
    rw [hk] at hc
    rw [hp] at hc
    exact absurd hc.2 (by simp)
  rw [if_neg hc] at hs1 hrem
  rw [hk] at hs1 hrem
  simp only [] at hs1 hrem
  refine ⟨hs1.symm, ?_⟩
  rw [← hrem, hav]
  simp

theorem refreshEntry_available_demote {pe : String → Bool} {now : Nat}
    {s : BookQueue} {e : String × QueueStatus} {s1 : BookQueue} {rem : Bool}
    {info : BookInfo}
    (h : refreshEntry pe now s e = some (s1, rem))
    (hav : e.2 = QueueStatus.AVAILABLE)
    (hbd : dlookup s.book_data e.1 = some info)
    (hmiss : ¬ (pyTruthy info.download_path = true ∧
      pe (info.download_path.getD "") = true)) :
    dlookup s1.status e.1 = some QueueStatus.DONE ∧
    dlookup s1.status_timestamps e.1 = some now ∧
    rem = false := by
  unfold refreshEntry at h
  rw [hbd] at h
  simp only [Option.some.injEq, Prod.mk.injEq] at h
  obtain ⟨hs1, hrem⟩ := h
  have hp2 : pyTruthy (clearPath pe s e.1 info).2 = false := by
    by_cases hc1 : pyTruthy info.download_path = true ∧
        pe (info.download_path.getD "") = false
    · unfold clearPath
      rw [if_pos hc1]
      rfl
    · unfold clearPath
      rw [if_neg hc1]
      show pyTruthy info.download_path = false
      by_cases hp : pyTruthy info.download_path = true
      · rcases Bool.eq_false_or_eq_true (pe (info.download_path.getD ""))
          with h2 | h2
        · exact absurd ⟨hp, h2⟩ hmiss
        · exact absurd ⟨hp, h2⟩ hc1
      · simpa using hp
  have hdem : e.2 = QueueStatus.AVAILABLE ∧
      pyTruthy (clearPath pe s e.1 info).2 = false := ⟨hav, hp2⟩
  rw [if_pos hdem] at hs1 hrem
  subst hs1
  simp only [BookQueue._update_status] at hrem ⊢
  refine ⟨dlookup_dinsert_self _ _ _, dlookup_dinsert_self _ _ _, ?_⟩
  rw [← hrem]
  rw [dlookup_dinsert_self]
  simp

theorem refreshLoop_append (pe : String → Bool) (now : Nat)
    (L1 L2 : List (String × QueueStatus)) :
    ∀ (s : BookQueue) (acc : List String),
    refreshLoop pe now (L1 ++ L2) s acc =
      (refreshLoop pe now L1 s acc).bind
        (fun r => refreshLoop pe now L2 r.1 r.2) := by
  induction L1 with
  | nil => intro s acc; simp [refreshLoop]
  | cons e rest ih =>
    intro s acc
    simp only [List.cons_append, refreshLoop]
    cases h : refreshEntry pe now s e with
    | none => simp
    | some r =>
      obtain ⟨sB, remB⟩ := r
      simp [ih]

theorem refreshLoop_frame (pe : String → Bool) (now : Nat) :
    ∀ (L : List (String × QueueStatus)) (s : BookQueue) (acc : List String)
      (s1 : BookQueue) (acc1 : List String),
    refreshLoop pe now L s acc = some (s1, acc1) →
    s1.cancel_flags = s.cancel_flags ∧ s1.active_downloads = s.active_downloads ∧
    s1.queue = s.queue ∧ s1.status_timeout = s.status_timeout ∧
    ∀ id, id ∉ L.map Prod.fst →
      dlookup s1.status id = dlookup s.status id ∧
      dlookup s1.status_timestamps id = dlookup s.status_timestamps id ∧
      dlookup s1.book_data id = dlookup s.book_data id ∧
      (id ∈ acc1 ↔ id ∈ acc) := by
  intro L
  induction L with
  | nil =>
    intro s acc s1 acc1 h
    simp [refreshLoop] at h
    obtain ⟨h1, h2⟩ := h
    subst h1
    subst h2
    exact ⟨rfl, rfl, rfl, rfl, fun id _ => ⟨rfl, rfl, rfl, Iff.rfl⟩⟩
  | cons e rest ih =>
    intro s acc s1 acc1 h
    simp only [refreshLoop] at h
    cases hE : refreshEntry pe now s e with
    | none => rw [hE] at h; simp at h
    | some r =>
      obtain ⟨sB, remB⟩ := r
      rw [hE] at h
      simp only [] at h
      obtain ⟨hfl, had, hqu, hto, hother⟩ := refreshEntry_frame hE
      obtain ⟨ifl, iad, iqu, ito, iother⟩ := ih sB _ s1 acc1 h
      refine ⟨by rw [ifl, hfl], by rw [iad, had], by rw [iqu, hqu],
        by rw [ito, hto], ?_⟩
      intro id hid
      simp only [List.map_cons, List.mem_cons] at hid
      push_neg at hid
      obtain ⟨hne, hnr⟩ := hid
      obtain ⟨o1, o2, o3⟩ := hother id hne
      obtain ⟨i1, i2, i3, i4⟩ := iother id hnr
      refine ⟨by rw [i1, o1], by rw [i2, o2], by rw [i3, o3], ?_⟩
      rw [i4]
      by_cases hrB : remB = true
      · rw [if_pos hrB]
        simp [hne]
      · rw [if_neg hrB]

theorem reapAll_spec : ∀ (rem : List String) (s : BookQueue) (id : String),
    dlookup (BookQueue.reapAll rem s).status id =
      (if id ∈ rem then none else dlookup s.status id) ∧
    dlookup (BookQueue.reapAll rem s).status_timestamps id =
      (if id ∈ rem then none else dlookup s.status_timestamps id) ∧
    dlookup (BookQueue.reapAll rem s).book_data id =
      (if id ∈ rem then none else dlookup s.book_data id) ∧
    (BookQueue.reapAll rem s).cancel_flags = s.cancel_flags ∧
    (BookQueue.reapAll rem s).active_downloads = s.active_downloads ∧
    (BookQueue.reapAll rem s).queue = s.queue ∧
    (BookQueue.reapAll rem s).status_timeout = s.status_timeout := by
  intro rem
  induction rem with
  | nil => intro s id; simp [BookQueue.reapAll]
  | cons r rest ih =>
    intro s id
    have hr : BookQueue.reapAll (r :: rest) s =
        BookQueue.reapAll rest (BookQueue.reapId s r) := rfl
    rw [hr]
    obtain ⟨h1, h2, h3, h4, h5, h6, h7⟩ := ih (BookQueue.reapId s r) id
    by_cases hid : id = r
    · subst hid
      have e1 : dlookup (BookQueue.reapId s id).status id = none :=
        dlookup_derase_self _ _
      have e2 : dlookup (BookQueue.reapId s id).status_timestamps id = none :=
        dlookup_derase_self _ _
      have e3 : dlookup (BookQueue.reapId s id).book_data id = none :=
        dlookup_derase_self _ _
      refine ⟨?_, ?_, ?_, h4, h5, h6, h7⟩
      · rw [h1, e1]; simp
      · rw [h2, e2]; simp
      · rw [h3, e3]; simp
    · have e1 : dlookup (BookQueue.reapId s r).status id = dlookup s.status id :=
        dlookup_derase_other _ _ _ hid
      have e2 : dlookup (BookQueue.reapId s r).status_timestamps id =
          dlookup s.status_timestamps id := dlookup_derase_other _ _ _ hid
      have e3 : dlookup (BookQueue.reapId s r).book_data id =
          dlookup s.book_data id := dlookup_derase_other _ _ _ hid
      have hmem : (id ∈ r :: rest) = (id ∈ rest) := by
        simp [List.mem_cons, hid]
      refine ⟨?_, ?_, ?_, h4, h5, h6, h7⟩
      · rw [h1, e1]; simp [List.mem_cons, hid]
      · rw [h2, e2]; simp [List.mem_cons, hid]
      · rw [h3, e3]; simp [List.mem_cons, hid]

theorem dlookup_decomp {α : Type} : ∀ (d : List (String × α)) (id : String) (v : α),
    dlookup d id = some v → (d.map Prod.fst).Nodup →
    ∃ L1 L2, d = L1 ++ (id, v) :: L2 ∧
      id ∉ L1.map Prod.fst ∧ id ∉ L2.map Prod.fst := by
  intro d
  induction d with
  | nil => intro id v h; simp [dlookup] at h
  | cons p rest ih =>
    intro id v h hnd
    obtain ⟨a, b⟩ := p
    simp only [List.map_cons, List.nodup_cons] at hnd
    by_cases ha : a = id
    · subst ha
      simp [dlookup] at h
      subst h
      exact ⟨[], rest, rfl, by simp, hnd.1⟩
    · simp [dlookup, ha] at h
      obtain ⟨L1, L2, hdeq, h1, h2⟩ := ih id v h hnd.2
      refine ⟨(a, b) :: L1, L2, by rw [hdeq]; rfl, ?_, h2⟩
      simp [ha, h1]
      intro hc
      exact absurd hc.symm ha

/-! ### Claim C6 -/

/-- C6 counterexample: (i) a job whose status is `available` (not terminal),
with an artifact that still exists, is evicted by `refresh` once its
timestamp is stale — refuting "a job whose status is not terminal is never
evicted"; (ii) a stale cancelled job is purged from status/timestamp/metadata
but its residual cancel flag survives the purge — refuting "removing all
their registry entries including residual cancellation bookkeeping". -/
theorem C6_counterexample :
    (dlookup c6s3.status "x" = some QueueStatus.AVAILABLE ∧
     (BookQueue.refresh (fun _ => true) 4000 c6s3).map
       (fun u => dlookup u.status "x") = some none ∧
     (BookQueue.refresh (fun _ => true) 4000 c6s3).map
       (fun u => dlookup u.book_data "x") = some none) ∧
    (dlookup c6t3.status "y" = some QueueStatus.CANCELLED ∧
     (BookQueue.refresh (fun _ => true) 5000 c6t3).map
       (fun u => dlookup u.status "y") = some none ∧
     (BookQueue.refresh (fun _ => true) 5000 c6t3).map
       (fun u => dlookup u.cancel_flags "y") = some (some true)) := by decide

/-- C6 amended: on a pass that completes, `refresh` (1) never evicts a
`queued`/`downloading` job, however stale; (2) purges a `done`/`error`/
`cancelled` job (status, timestamp, and metadata entries) exactly when its
timestamp is older than the timeout; (3) purges a stale `available` job
whose recorded artifact still exists, (4) keeps a non-stale `available` job
with an existing artifact untouched (status and timestamp intact), (5)
demotes an `available` job whose recorded path is missing or does not
resolve to an existing artifact to `done` with its timestamp refreshed to
`now` — so it survives this pass no matter how old its previous timestamp
was; and (6) never touches the cancellation flags, the active-download set,
or the dispatch queue — so residual cancellation bookkeeping survives
eviction. -/
theorem C6_reaper_eviction (pe : String → Bool) (now : Nat) (s s' : BookQueue)
    (id : String) (st : QueueStatus)
    (hnd : (s.status.map Prod.fst).Nodup)
    (href : BookQueue.refresh pe now s = some s')
    (hst : dlookup s.status id = some st) :
    ((st = QueueStatus.QUEUED ∨ st = QueueStatus.DOWNLOADING) →
      dlookup s'.status id = some st) ∧
    (st ∈ [QueueStatus.DONE, QueueStatus.ERROR, QueueStatus.CANCELLED] →
      ∀ t, dlookup s.status_timestamps id = some t →
        (now - t > s.status_timeout →
          dlookup s'.status id = none ∧
          dlookup s'.status_timestamps id = none ∧
          dlookup s'.book_data id = none) ∧
        (¬ (now - t > s.status_timeout) →
          dlookup s'.status id = some st)) ∧
    (st = QueueStatus.AVAILABLE →
      ∀ info t, dlookup s.book_data id = some info →
        pyTruthy info.download_path = true →
        pe (info.download_path.getD "") = true →
        dlookup s.status_timestamps id = some t →
        now - t > s.status_timeout →
        dlookup s'.status id = none) ∧
    (st = QueueStatus.AVAILABLE →
      ∀ info t, dlookup s.book_data id = some info →
        pyTruthy info.download_path = true →
        pe (info.download_path.getD "") = true →
        dlookup s.status_timestamps id = some t →
        ¬ (now - t > s.status_timeout) →
        dlookup s'.status id = some QueueStatus.AVAILABLE ∧
        dlookup s'.status_timestamps id = some t) ∧
    (st = QueueStatus.AVAILABLE →
      ∀ info, dlookup s.book_data id = some info →
        ¬ (pyTruthy info.download_path = true ∧
          pe (info.download_path.getD "") = true) →
        dlookup s'.status id = some QueueStatus.DONE ∧
        dlookup s'.status_timestamps id = some now) ∧
    (s'.cancel_flags = s.cancel_flags ∧
     s'.active_downloads = s.active_downloads ∧
     s'.queue = s.queue) := by
  unfold BookQueue.refresh at href
  cases hL : refreshLoop pe now s.status s [] with
  | none => rw [hL] at href; simp at href
  | some r =>
    obtain ⟨sF, remF⟩ := r
    rw [hL] at href
    simp only [Option.some.injEq] at href
    subst href
    obtain ⟨L1, L2, hdeq, hn1, hn2⟩ := dlookup_decomp s.status id st hst hnd
    rw [hdeq, refreshLoop_append] at hL
    cases hA : refreshLoop pe now L1 s [] with
    | none => rw [hA] at hL; simp at hL
    | some rA =>
      obtain ⟨sA, accA⟩ := rA
      rw [hA] at hL
      simp only [Option.some_bind] at hL
      simp only [refreshLoop] at hL
      cases hB : refreshEntry pe now sA (id, st) with
      | none => rw [hB] at hL; simp at hL
      | some rB =>
        obtain ⟨sB, remB⟩ := rB
        rw [hB] at hL
        simp only [] at hL
        obtain ⟨fAfl, fAad, fAqu, fAto, fAat⟩ :=
          refreshLoop_frame pe now L1 s [] sA accA hA
        obtain ⟨a1, a2, a3, aacc⟩ := fAat id hn1
        obtain ⟨fBfl, fBad, fBqu, fBto, _⟩ := refreshEntry_frame hB
        obtain ⟨fCfl, fCad, fCqu, fCto, fCat⟩ :=
          refreshLoop_frame pe now L2 sB _ sF remF hL
        obtain ⟨c1, c2, c3, cacc⟩ := fCat id hn2
        obtain ⟨r1, r2, r3, r4, r5, r6, r7⟩ := reapAll_spec remF sF id
        have hidacc : id ∉ accA := by
          rw [aacc]
          simp
        have hremF : (id ∈ remF) ↔ (remB = true) := by
          rw [cacc]
          cases remB with
          | false => simp [hidacc]
          | true => simp
        refine ⟨?_, ?_, ?_, ?_, ?_, by rw [r4, fCfl, fBfl, fAfl],
          by rw [r5, fCad, fBad, fAad], by rw [r6, fCqu, fBqu, fAqu]⟩
        · intro hqd
          have hna : (id, st).2 ≠ QueueStatus.AVAILABLE := by
            rcases hqd with h | h <;> simp [h]
          obtain ⟨n1, _, n3⟩ := refreshEntry_nondemote hB hna
          have hrem0 : remB = false := by
            rw [n3]
            have : decide ((id, st).2 ∈ [QueueStatus.DONE, QueueStatus.ERROR,
                QueueStatus.AVAILABLE, QueueStatus.CANCELLED]) = false := by
              rcases hqd with h | h <;> simp [h]
            rw [this, Bool.and_false]
          have hnotin : id ∉ remF := by
            rw [hremF, hrem0]
            simp
          rw [r1, if_neg hnotin, c1, n1, a1, hst]
        · intro hterm t ht
          have hna : (id, st).2 ≠ QueueStatus.AVAILABLE := by
            simp only []
            intro hx
            rw [hx] at hterm
            simp at hterm
          obtain ⟨n1, _, n3⟩ := refreshEntry_nondemote hB hna
          have hinlist : decide ((id, st).2 ∈ [QueueStatus.DONE,
              QueueStatus.ERROR, QueueStatus.AVAILABLE,
              QueueStatus.CANCELLED]) = true := by
            simp only []
            fin_cases hterm <;> simp
          have hts : dlookup sA.status_timestamps id = some t := by rw [a2, ht]
          have hrem1 : remB = decide (now - t > sA.status_timeout) := by
            rw [n3, hts]
            simp only []
            rw [hinlist, Bool.and_true]
          rw [fAto] at hrem1
          constructor
          · intro hstale
            have hrB : remB = true := by
              rw [hrem1]
              simpa using hstale
            have hin : id ∈ remF := hremF.mpr hrB
            exact ⟨by rw [r1, if_pos hin], by rw [r2, if_pos hin],
              by rw [r3, if_pos hin]⟩
          · intro hstale
            have hrB : remB = false := by
              rw [hrem1]
              simpa using hstale
            have hnotin : id ∉ remF := by
              rw [hremF, hrB]
              simp
            rw [r1, if_neg hnotin, c1, n1, a1, hst]
        · intro hav info t hbd hp hpe ht hstale
          have hbdA : dlookup sA.book_data id = some info := by rw [a3, hbd]
          have hrem1 := (refreshEntry_available_kept hB hav hbdA hp hpe).2
          have htsA : dlookup sA.status_timestamps id = some t := by rw [a2, ht]
          rw [htsA] at hrem1
          rw [fAto] at hrem1
          have hrB : remB = true := by
            rw [hrem1]
            simpa using hstale
          have hin : id ∈ remF := hremF.mpr hrB
          rw [r1, if_pos hin]
        · intro hav info t hbd hp hpe ht hnstale
          have hbdA : dlookup sA.book_data id = some info := by rw [a3, hbd]
          obtain ⟨hseq, hrem1⟩ := refreshEntry_available_kept hB hav hbdA hp hpe
          have htsA : dlookup sA.status_timestamps id = some t := by rw [a2, ht]
          rw [htsA] at hrem1
          rw [fAto] at hrem1
          have hrB : remB = false := by
            rw [hrem1]
            simpa using hnstale
          have hnotin : id ∉ remF := by
            rw [hremF, hrB]
            simp
          have hsB1 : dlookup sB.status id = some QueueStatus.AVAILABLE := by
            rw [hseq, a1, hst, hav]
          have hsB2 : dlookup sB.status_timestamps id = some t := by
            rw [hseq, a2, ht]
          exact ⟨by rw [r1, if_neg hnotin, c1, hsB1],
            by rw [r2, if_neg hnotin, c2, hsB2]⟩
        · intro hav info hbd hmiss
          have hbdA : dlookup sA.book_data id = some info := by rw [a3, hbd]
          obtain ⟨hd1, hd2, hd3⟩ := refreshEntry_available_demote hB hav hbdA hmiss
          have hnotin : id ∉ remF := by
            rw [hremF, hd3]
            simp
          exact ⟨by rw [r1, if_neg hnotin, c1, hd1],
            by rw [r2, if_neg hnotin, c2, hd2]⟩

theorem C6_reaper_eviction_witness :
    dlookup c6ws2.status "z" = some QueueStatus.QUEUED ∧
    (dlookup c6wd2.status "x" = some QueueStatus.DONE ∧
     dlookup c6wd2.status_timestamps "x" = some 99999) :=
  ⟨(C6_reaper_eviction (fun _ => true) 999999 c6ws c6ws2 "z" QueueStatus.QUEUED
      (by decide) (by decide) (by decide)).1 (Or.inl rfl),
   (C6_reaper_eviction (fun _ => false) 99999 c6wd c6wd2 "x"
      QueueStatus.AVAILABLE (by decide) (by decide) (by decide)).2.2.2.2.1 rfl
      { mkInfo "x" with download_path := some "/gone" } (by decide) (by decide)⟩

/-! ### Claim C10 -/

/-- C10 (code-bug evaluation): the public `update_status` called on an id
absent from the registry creates a status entry with no matching metadata
entry, and the next reaper pass then fails with a missing-key error
(`KeyError` at `self._book_data[book_id]`, modelled as `none`) instead of
completing — refuting the claimed "status ids always have metadata" safety
invariant for states reachable through the public operations. -/
theorem C10_bug_eval :
    (dlookup (BookQueue.update_status (initQ 3600) "x" QueueStatus.DONE 0).status
      "x").isSome = true ∧
    dlookup (BookQueue.update_status (initQ 3600) "x" QueueStatus.DONE 0).book_data
      "x" = none ∧
    BookQueue.refresh (fun _ => true) 1
      (BookQueue.update_status (initQ 3600) "x" QueueStatus.DONE 0) = none := by
  decide
